import Mathlib

/-!
Shallow embedding of `src/main.ts` of the `ai-codereviewer` action: a
diff-to-review pipeline that parses a unified diff, filters files by glob
exclusion patterns, compiles one review prompt per surviving file, sends it to
an inference service, and aggregates the returned findings into review
comments submitted as a single review.

External boundaries (the `parse-diff` library's output shape, the OpenAI call,
JSON parsing of the model response, and the `minimatch` glob matcher) are
modelled as explicit data / function parameters; everything the repository's
own code does with them is translated directly from `src/main.ts`.
-/

set_option maxRecDepth 40000

namespace Reviewer

/-- Kind tag of a `parse-diff` change line (`normal`, `add` or `del`). -/
inductive ChangeKind where
  | add
  | del
  | normal
  deriving DecidableEq, Repr

/-- One line-level change of a hunk, as produced by the external `parse-diff`
library: an `add` change carries its new-side number in `ln`, a `del` change
carries its original-side number in `ln`, and a `normal` change carries the
original-side number in `ln1` and the new-side number in `ln2`.  All fields
are optional here because `src/main.ts` reads `c.ln` and `c.ln2` through an
`@ts-expect-error`, i.e. on the raw record, where any of them may be absent. -/
structure Change where
  kind : ChangeKind
  ln : Option Nat
  ln1 : Option Nat
  ln2 : Option Nat
  content : String
  deriving DecidableEq, Repr

/-- One hunk ("chunk") of a file's diff: header/context text plus the ordered
change lines. -/
structure Chunk where
  content : String
  changes : List Change
  deriving DecidableEq, Repr

/-- One file of the parsed diff.  `to = none` models an absent (`undefined`)
destination path; the deletion sentinel is `some "/dev/null"`. -/
structure File where
  «to» : Option String
  chunks : List Chunk
  deriving DecidableEq, Repr

/-- Pull-request details (`getPRDetails` result shape in `src/main.ts`). -/
structure PRDetails where
  owner : String
  repo : String
  pull_number : Nat
  title : String
  description : String
  deriving DecidableEq, Repr

/-- New-side line number of a change under `parse-diff`'s conventions:
`ln` for an addition, `ln2` for a normal line, absent for a deletion. -/
def Change.newSide (c : Change) : Option Nat :=
  match c.kind with
  | .add => c.ln
  | .del => none
  | .normal => c.ln2

/-- Original-side line number of a change under `parse-diff`'s conventions:
`ln` for a deletion, `ln1` for a normal line, absent for an addition. -/
def Change.origSide (c : Change) : Option Nat :=
  match c.kind with
  | .add => c.ln1
  | .del => c.ln
  | .normal => c.ln1

/-- Truthiness of an optional line number viewed as present-and-positive. -/
def posNum : Option Nat → Bool
  | some n => n != 0
  | none => false

/-- Well-formedness invariant of `parse-diff` output: an `add`/`del` change
carries exactly its `ln` (positive), a `normal` change carries `ln1` and `ln2`
(positive) and no `ln`. -/
def Change.wf (c : Change) : Bool :=
  match c.kind with
  | .add => posNum c.ln && c.ln1 == none && c.ln2 == none
  | .del => posNum c.ln && c.ln1 == none && c.ln2 == none
  | .normal => c.ln == none && posNum c.ln1 && posNum c.ln2

/-- JavaScript truthiness of an optional number: `undefined` and `0` are
falsy, every other number is truthy. -/
def jsTruthyNum : Option Nat → Bool
  | some n => n != 0
  | none => false

/-- JavaScript template-string rendering of an optional number: `undefined`
renders as the literal text `undefined`. -/
def jsShowOptNat : Option Nat → String
  | some n => toString n
  | none => "undefined"

/-- JavaScript template-string rendering of an optional string. -/
def jsShowOptStr : Option String → String
  | some s => s
  | none => "undefined"

/-- The rendered line label of a change, from `src/main.ts` line 70:
`c.ln ? c.ln : c.ln2` under JavaScript truthiness. -/
def lineLabel (c : Change) : String :=
  if jsTruthyNum c.ln then jsShowOptNat c.ln else jsShowOptNat c.ln2

/-- One rendered change line of the prompt (line 70 of `src/main.ts`):
the line label followed by a space and the literal content. -/
def renderChange (c : Change) : String :=
  lineLabel c ++ " " ++ c.content

/-- One rendered chunk of the prompt (lines 66-71 of `src/main.ts`):
a leading newline, the chunk header, a newline, then the change lines joined
by newlines. -/
def renderChunk (ch : Chunk) : String :=
  "\n" ++ ch.content ++ "\n" ++ String.intercalate "\n" (ch.changes.map renderChange)

/-- `combinedChunks` of `createPrompt` (lines 64-73 of `src/main.ts`). -/
def combinedChunks (chunks : List Chunk) : String :=
  String.intercalate "\n" (chunks.map renderChunk)

/-- `createPrompt` of `src/main.ts` (lines 59-106): the fixed Portuguese
review-instruction template with the file path, PR title, PR description and
the combined chunks interpolated. -/
def createPrompt (file : File) (chunks : List Chunk) (prDetails : PRDetails) : String :=
  "\n    Você é um Engenheiro de Software experiente e deve revisar um pull request para garantir código limpo, eficiente e seguindo boas práticas. Analise:\n\n    1. Qualidade: Verifique manutenibilidade e clareza. Simplifique onde possível.\n    2. Lógica: Confirme a funcionalidade e identifique erros ou casos extremos.\n    3. Desempenho: Sugira melhorias de uso de recursos e execução.\n    4. Segurança: Identifique vulnerabilidades.\n    5. Testes: Avalie cobertura e eficácia. Sugira testes adicionais, se necessário.\n    6. Documentação: Verifique se está clara e precisa, mas não sugira adicionar comentários no código.\n\n    Formato da resposta: JSON no formato \x7b\"reviews\": [\x7b\"lineNumber\": \"<número>\", \"reviewComment\": \"<comentário>\"\x7d]\x7d. Só forneça sugestões de melhoria e comente uma vez por problema. Se não houver melhorias, deixe \"reviews\" vazio.\n\n    Instruções:\n    - Comente apenas arquivos de código, ignore configurações (.json, .yaml, .yml, .properties).\n    - Feedback construtivo e específico, em português do Brasil.\n\n    Revise o seguinte diff de código no arquivo \""
    ++ jsShowOptStr file.to
    ++ "\" e considere o título e a descrição do pull request ao escrever a resposta.\n\n    Título do pull request: "
    ++ prDetails.title
    ++ "\n    Descrição do pull request:\n\n    ---\n    "
    ++ prDetails.description
    ++ "\n    ---\n\n    Git diff para revisão:\n\n```diff\n"
    ++ combinedChunks chunks
    ++ "\n```\n"

/-- Splits a character list at every occurrence of `sep`; the semantics of
JavaScript `String.prototype.split` with a single-character separator (and of
`minimatch`'s `path.split("/")`): the empty input yields one empty segment. -/
def splitSegs (sep : Char) : List Char → List (List Char)
  | [] => [[]]
  | c :: cs =>
    if c = sep then [] :: splitSegs sep cs
    else
      match splitSegs sep cs with
      | s :: ss => (c :: s) :: ss
      | [] => [[c]]

/-- JavaScript `String.prototype.split` with a one-character separator,
lifted to `String`. -/
def jsSplit (s : String) (sep : Char) : List String :=
  (splitSegs sep s.data).map (fun l => ⟨l⟩)

/-- JavaScript `String.prototype.trim`: strips leading and trailing
whitespace. -/
def jsTrim (s : String) : String :=
  ⟨((s.data.dropWhile Char.isWhitespace).reverse.dropWhile Char.isWhitespace).reverse⟩

/-- Classification of a JavaScript string by the result of applying the
`Number` coercion to it, restricted to the cases the pipeline can encounter:
the empty (or all-whitespace) string coerces to `0`, a numeral string coerces
to its (integer) value, and every other string coerces to `NaN`.  The model's
`lineNumber` field is carried as such a classification. -/
inductive NumStr where
  | empty
  | numeric (n : Int)
  | nonNumeric
  deriving DecidableEq, Repr

/-- A JavaScript number as far as the pipeline observes it: `NaN` or an
integer value. -/
inductive JsNum where
  | nan
  | num (n : Int)
  deriving DecidableEq, Repr

/-- JavaScript `Number(...)` applied to a string of the given class. -/
def jsNumber : NumStr → JsNum
  | .empty => .num 0
  | .numeric n => .num n
  | .nonNumeric => .nan

/-- One element of the model's `reviews` array: `lineNumber` (a string,
carried as its `Number`-coercion class) and `reviewComment` (`none` models an
absent field, surfacing as `undefined`). -/
structure Finding where
  lineNumber : NumStr
  reviewComment : Option String
  deriving DecidableEq, Repr

/-- The final comment record built by `analyzeCode` (lines 148-152 of
`src/main.ts`): `\x7bbody, path: file.to!, line: Number(...)\x7d`.  The `!` on
`file.to` is a type-level assertion only, so `path` keeps the optional
value. -/
structure ReviewComment where
  body : Option String
  path : Option String
  line : JsNum
  deriving DecidableEq, Repr

/-- Fuel-driven worker for `wildMatch` (the fuel only forces structural
recursion; `wildMatch` supplies enough of it for every input). -/
def wildMatchF : Nat → List Char → List Char → Bool
  | 0, _, _ => false
  | fuel + 1, pat, cs =>
    match pat, cs with
    | [], [] => true
    | [], _ :: _ => false
    | '*' :: ps, [] => wildMatchF fuel ps []
    | '*' :: ps, c :: cs' => wildMatchF fuel ps (c :: cs') || wildMatchF fuel ('*' :: ps) cs'
    | _ :: _, [] => false
    | p :: ps, c :: cs' => p == c && wildMatchF fuel ps cs'

/-- Matches one glob pattern segment that contains `*` wildcards against one
path segment, with `*` standing for any (possibly empty) run of
non-separator characters. -/
def wildMatch (pat cs : List Char) : Bool :=
  wildMatchF (pat.length + cs.length + 1) pat cs

/-- Matches one pattern segment against one path segment: a segment with no
wildcard matches only the identical segment; a wildcard segment additionally
requires the path segment to be non-empty (`minimatch` guards every magic
segment with a non-empty lookahead, so `*` never matches an empty segment). -/
def segMatch (pat f : List Char) : Bool :=
  if pat.contains '*' then !f.isEmpty && wildMatch pat f
  else pat == f

/-- One compiled pattern segment of the matcher: a segment that is exactly
`**` is a globstar, every other segment matches per `segMatch`. -/
inductive Seg where
  | globstar
  | lit (cs : List Char)

/-- Compiles one raw pattern segment (`**` exactly becomes a globstar, as in
the library; `**` mixed with other characters inside a segment is an ordinary
wildcard segment). -/
def compileSeg (seg : List Char) : Seg :=
  if seg == ['*', '*'] then .globstar else .lit seg

/-- True of a path segment a globstar refuses to swallow: one starting with a
dot (this also covers the library's explicit `.` and `..` checks, since the
`dot` option is off). -/
def isDotSeg : List Char → Bool
  | c :: _ => c == '.'
  | [] => false

/-- Fuel-driven worker for `matchSegs` (fuel only forces structural
recursion; `matchSegs` supplies enough of it for every input).  This mirrors
the library's `matchOne` over segment lists: a trailing globstar swallows all
remaining non-dot-initial segments (possibly none); a non-trailing globstar
tries the rest of the pattern at every non-empty suffix of the remaining
path, stopping at a dot-initial segment; an exhausted pattern accepts exactly
an exhausted path or one trailing empty segment (the trailing-slash rule). -/
def matchSegsF : Nat → List (List Char) → List Seg → Bool
  | 0, _, _ => false
  | fuel + 1, fs, ps =>
    match fs, ps with
    | [], [] => true
    | [f], [] => f.isEmpty
    | _ :: _ :: _, [] => false
    | fs', [.globstar] => fs'.all fun seg => !isDotSeg seg
    | [], .globstar :: _ :: _ => false
    | f :: fs', .globstar :: p :: ps' =>
      matchSegsF fuel (f :: fs') (p :: ps') ||
        (!isDotSeg f && matchSegsF fuel fs' (.globstar :: p :: ps'))
    | [], .lit _ :: _ => false
    | f :: fs', .lit p :: ps' => segMatch p f && matchSegsF fuel fs' ps'

/-- Matches a path's segment list against a compiled pattern segment list. -/
def matchSegs (fs : List (List Char)) (ps : List Seg) : Bool :=
  matchSegsF (fs.length + ps.length + 1) fs ps

/-- Modelled from the documented contract and the v3 implementation of the
external `minimatch` library that `src/main.ts` delegates path matching to
(the library itself is not part of this repository): a pattern that is empty
after trimming matches only the empty path; otherwise path and pattern are
split on `/` and matched segment-wise per `matchSegs` — a segment that is
exactly `**` is a globstar, `*` inside a segment matches a non-empty run of
non-separator characters (the library guards every magic segment with a
non-empty lookahead), other characters match literally, and a path with one
trailing empty segment is accepted when the pattern runs out.  Brace
expansion, negation, character classes and extglob are not modelled; no
theorem in this file consults the matcher on a pattern that uses them. -/
def minimatch (path pattern : String) : Bool :=
  if jsTrim pattern == "" then path == ""
  else matchSegs (splitSegs '/' path.data) ((splitSegs '/' pattern.data).map compileSeg)

/-- Outcome of the `openai.chat.completions.create` call for one prompt:
either the awaited call throws (transport failure, error status, missing
choices), or it yields the message content `choices[0].message?.content`
(`none` models an absent/null content). -/
inductive ServiceOutcome where
  | throws
  | ok (content : Option String)

/-- Classification of the JavaScript value `JSON.parse(res).reviews` used by
`getAIResponse`: the model's `reviews` field can be absent (`undefined`),
`null`, some other falsy primitive, an array of findings, or a truthy value
that is not an array.  This is the exhaustive case split that the consuming
code (`if (aiResponse)` followed by `aiResponse.map`) distinguishes. -/
inductive ReviewsVal where
  | jsUndefined
  | jsNull
  | jsFalsyOther
  | jsArray (rs : List Finding)
  | jsTruthyNonArray
  deriving DecidableEq, Repr

/-- Result of evaluating `JSON.parse(res).reviews` on a response string:
`fail` models a thrown `SyntaxError`/`TypeError` (non-parseable content or a
`null` parse result), `parsed` the resulting `reviews` value. -/
inductive ParseResult where
  | fail
  | parsed (reviews : ReviewsVal)

/-- `getAIResponse` of `src/main.ts` (lines 108-133), with the external
pieces passed in: `svc` is the inference call keyed by the prompt, `parse`
evaluates `JSON.parse(res).reviews` on a response string.  A thrown fault
anywhere inside the `try` is caught and turned into `null`; absent or
blank content falls back to the literal `"{}"` before parsing. -/
def getAIResponse (parse : String → ParseResult) (svc : String → ServiceOutcome)
    (prompt : String) : ReviewsVal :=
  match svc prompt with
  | .throws => .jsNull
  | .ok content =>
    let res :=
      match content with
      | none => "{}"
      | some s => if jsTrim s == "" then "{}" else jsTrim s
    match parse res with
    | .fail => .jsNull
    | .parsed v => v

/-- The comment record `analyzeCode` builds for one accepted finding (lines
148-152 of `src/main.ts`). -/
def mkComment (f : File) (r : Finding) : ReviewComment :=
  { body := r.reviewComment, path := f.to, line := jsNumber r.lineNumber }

/-- `analyzeCode` of `src/main.ts` (lines 135-157), instrumented with the list
of prompts for which an inference call was actually made (first component).
Files whose destination is `/dev/null` are skipped; a truthy response is
mapped into comments — except that when the `reviews` value is truthy but not
an array, the JavaScript `aiResponse.map` call throws a `TypeError` that
nothing catches, modelled as `Except.error`: the whole traversal (and every
comment accumulated so far) is lost.  A falsy response contributes nothing. -/
def analyzeCodeT (parse : String → ParseResult) (svc : String → ServiceOutcome)
    (prDetails : PRDetails) : List File → List String × Except Unit (List ReviewComment)
  | [] => ([], .ok [])
  | f :: rest =>
    if f.to == some "/dev/null" then analyzeCodeT parse svc prDetails rest
    else
      match getAIResponse parse svc (createPrompt f f.chunks prDetails) with
      | .jsArray rs =>
        (createPrompt f f.chunks prDetails :: (analyzeCodeT parse svc prDetails rest).1,
         (analyzeCodeT parse svc prDetails rest).2.map
           (fun tail => rs.map (mkComment f) ++ tail))
      | .jsTruthyNonArray => ([createPrompt f f.chunks prDetails], .error ())
      | _ =>
        (createPrompt f f.chunks prDetails :: (analyzeCodeT parse svc prDetails rest).1,
         (analyzeCodeT parse svc prDetails rest).2)

/-- The comment list `analyzeCode` resolves with (or the uncaught fault). -/
def analyzeCode (parse : String → ParseResult) (svc : String → ServiceOutcome)
    (prDetails : PRDetails) (parsedDiff : List File) : Except Unit (List ReviewComment) :=
  (analyzeCodeT parse svc prDetails parsedDiff).2

/-- The findings the inference boundary yields for one file: the `reviews`
array when the response parses to one, and nothing otherwise. -/
def fileFindings (parse : String → ParseResult) (svc : String → ServiceOutcome)
    (prDetails : PRDetails) (f : File) : List Finding :=
  match getAIResponse parse svc (createPrompt f f.chunks prDetails) with
  | .jsArray rs => rs
  | _ => []

/-- The comment list `analyzeCode` produces when no file's response is a
truthy non-array: per surviving file, its findings mapped to comments, files
concatenated in processing order. -/
def expectedComments (parse : String → ParseResult) (svc : String → ServiceOutcome)
    (prDetails : PRDetails) (files : List File) : List ReviewComment :=
  files.flatMap fun f =>
    if f.to == some "/dev/null" then []
    else (fileFindings parse svc prDetails f).map (mkComment f)

/-- Everything `main` of `src/main.ts` reads from outside the pipeline: the
event action, the fetched diff text (`none` models `null`), the raw `exclude`
input string, the glob matcher, the external `parse-diff` builder, the
response-body evaluator, the inference service and the PR details. -/
structure Env where
  eventAction : Option String
  diff : Option String
  excludeInput : String
  mm : String → String → Bool
  parseDiff : String → List File
  parse : String → ParseResult
  svc : String → ServiceOutcome
  pr : PRDetails

/-- The exclusion pattern list (lines 199-202 of `src/main.ts`):
`core.getInput("exclude").split(",").map(s => s.trim())`. -/
def patternsOf (env : Env) : List String :=
  (jsSplit env.excludeInput ',').map jsTrim

/-- The filter predicate of lines 204-208 of `src/main.ts`: a file is dropped
when some exclusion pattern matches `file.to ?? ""`. -/
def fileExcluded (env : Env) (f : File) : Bool :=
  (patternsOf env).any fun pattern => env.mm (f.to.getD "") pattern

/-- The parsed diff (line 197 of `src/main.ts`), empty when no diff text is
available (those branches return before parsing). -/
def parsedFiles (env : Env) : List File :=
  match env.diff with
  | none => []
  | some d => if d == "" then [] else env.parseDiff d

/-- `filteredDiff` of lines 204-208 of `src/main.ts`. -/
def filteredFiles (env : Env) : List File :=
  (parsedFiles env).filter fun f => !fileExcluded env f

/-- The event guard of line 181 of `src/main.ts`. -/
def supportedEvent (env : Env) : Bool :=
  env.eventAction == some "opened" || env.eventAction == some "synchronize"

/-- The `!diff` guard of line 192 of `src/main.ts`: both `null` and the empty
string are falsy. -/
def diffMissing (env : Env) : Bool :=
  env.diff == none || env.diff == some ""

/-- Observable outcome of one run: logged messages, the prompts sent to the
inference service, the single optional submission (`createReview` is called
from exactly one site, guarded by `comments.length > 0`), and the process
exit code (`main().catch` exits 1 on an uncaught fault). -/
structure RunTrace where
  log : List String
  calls : List String
  submitted : Option (List ReviewComment)
  exitCode : Nat
  deriving DecidableEq, Repr

/-- `main` of `src/main.ts` (lines 174-224) from the point where the external
fetches are done: unsupported events and missing diffs log and return cleanly;
otherwise the filtered diff is analyzed and the aggregate is submitted once
iff it is non-empty; an uncaught fault reaches `main().catch` and exits 1. -/
def mainRun (env : Env) : RunTrace :=
  if supportedEvent env then
    if diffMissing env then { log := ["No diff found"], calls := [], submitted := none, exitCode := 0 }
    else
      match (analyzeCodeT env.parse env.svc env.pr (filteredFiles env)).2 with
      | .error _ =>
        { log := ["Error:"],
          calls := (analyzeCodeT env.parse env.svc env.pr (filteredFiles env)).1,
          submitted := none, exitCode := 1 }
      | .ok comments =>
        { log := [],
          calls := (analyzeCodeT env.parse env.svc env.pr (filteredFiles env)).1,
          submitted := if comments.length > 0 then some comments else none,
          exitCode := 0 }
  else { log := ["Unsupported event:"], calls := [], submitted := none, exitCode := 0 }

/-- PR details fixture used by concrete runs. -/
def pr0 : PRDetails := { owner := "o", repo := "r", pull_number := 1, title := "t", description := "d" }

/-- A surviving source file fixture. -/
def fileA : File := { «to» := some "a.ts", chunks := [] }

/-- A second source file fixture; its name carries the marker character `X`,
which occurs nowhere in the prompt template nor in the other fixtures, so a
service fixture can recognize this file's prompt by one linear scan. -/
def fileB : File := { «to» := some "X.ts", chunks := [] }

/-- Tail-recursive character search (used by service fixtures; tail recursion
keeps kernel reduction of long scans shallow). -/
def hasChar (c : Char) : List Char → Bool
  | [] => false
  | a :: as => if a == c then true else hasChar c as

/-- A deleted-file fixture (destination is the deletion sentinel). -/
def fileDel : File := { «to» := some "/dev/null", chunks := [] }

/-- A file fixture with an absent destination path. -/
def fileNoTo : File := { «to» := none, chunks := [] }

/-- A finding fixture. -/
def fnd0 : Finding := { lineNumber := .numeric 3, reviewComment := some "c" }

/-- Inference service fixture: answers `"B"` for `fileB`'s prompt (recognized
by its `X` marker) and `"A"` for every other prompt. -/
def svcAB : String → ServiceOutcome :=
  fun s => if hasChar 'X' s.data then .ok (some "B") else .ok (some "A")

/-- Body evaluator fixture: `"A"` carries one finding, `"B"` carries a truthy
non-array `reviews` value, `"{}"` yields an absent `reviews` field. -/
def parseAB : String → ParseResult :=
  fun s =>
    if s == "B" then .parsed .jsTruthyNonArray
    else if s == "A" then .parsed (.jsArray [fnd0])
    else if s == "\x7b\x7d" then .parsed .jsUndefined
    else .fail

/-- Environment fixture whose diff holds `fileA` then `fileB`, with a single
exclusion pattern that matches neither. -/
def envAB : Env :=
  { eventAction := some "opened", diff := some "d", excludeInput := "x.nomatch",
    mm := minimatch, parseDiff := fun _ => [fileA, fileB],
    parse := parseAB, svc := svcAB, pr := pr0 }

/-- Inference service fixture answering `"A"` to every prompt. -/
def svcConstA : String → ServiceOutcome := fun _ => .ok (some "A")

/-- Environment fixture excluding `a.ts` by an exact-name pattern. -/
def envC3 : Env :=
  { eventAction := some "opened", diff := some "d", excludeInput := "a.ts",
    mm := minimatch, parseDiff := fun _ => [fileA],
    parse := parseAB, svc := svcConstA, pr := pr0 }

/-- Environment fixture whose diff parses to zero files. -/
def envC5 : Env :=
  { eventAction := some "opened", diff := some "d", excludeInput := "",
    mm := minimatch, parseDiff := fun _ => [],
    parse := parseAB, svc := svcConstA, pr := pr0 }

/-- Environment fixture with an empty `exclude` configuration string and a
diff holding only a file with an absent destination path. -/
def envC7 : Env :=
  { eventAction := some "opened", diff := some "d", excludeInput := "",
    mm := minimatch, parseDiff := fun _ => [fileNoTo],
    parse := parseAB, svc := svcConstA, pr := pr0 }

/-- Environment fixture for an unsupported event action. -/
def envC9 : Env :=
  { eventAction := some "closed", diff := some "d", excludeInput := "",
    mm := minimatch, parseDiff := fun _ => [fileA],
    parse := parseAB, svc := svcConstA, pr := pr0 }

/-- Environment fixture with one non-empty literal pattern and a diff holding
only the path-less file. -/
def envC7b : Env :=
  { eventAction := some "opened", diff := some "d", excludeInput := "x.nomatch",
    mm := minimatch, parseDiff := fun _ => [fileNoTo],
    parse := parseAB, svc := svcConstA, pr := pr0 }

/-- Environment fixture of a fully successful two-file run. -/
def envOk : Env :=
  { eventAction := some "opened", diff := some "d", excludeInput := "x.nomatch",
    mm := minimatch, parseDiff := fun _ => [fileA, fileB],
    parse := parseAB, svc := svcConstA, pr := pr0 }

/-- Behavior of the modelled matcher on the empty path, for the pattern
shapes the library's empty-path behavior turns on: the empty pattern matches
it, and so do non-empty patterns made of globstars alone — so non-emptiness
of a pattern does NOT guarantee it spares the empty path — while lone stars,
literals and globstar-plus-literal patterns do not match it. -/
theorem minimatch_empty_path_cases :
    minimatch "" "" = true ∧
    minimatch "" "**" = true ∧
    minimatch "" "**/**" = true ∧
    minimatch "" "*" = false ∧
    minimatch "" "x.nomatch" = false ∧
    minimatch "" "**/x" = false := by
  decide

theorem analyzeCodeT_filter_deleted (parse : String → ParseResult)
    (svc : String → ServiceOutcome) (pr : PRDetails) : ∀ files : List File,
    analyzeCodeT parse svc pr files
      = analyzeCodeT parse svc pr (files.filter fun f => f.to != some "/dev/null")
  | [] => rfl
  | f :: rest => by
    have ih := analyzeCodeT_filter_deleted parse svc pr rest
    by_cases h : f.to = some "/dev/null"
    · simp [analyzeCodeT, List.filter_cons, h, ih]
    · have hb : (f.to == some "/dev/null") = false := by simpa using h
      cases hv : getAIResponse parse svc (createPrompt f f.chunks pr) <;>
        simp [analyzeCodeT, List.filter_cons, hb, hv, ih, h]

theorem analyzeCode_ok_eq (parse : String → ParseResult) (svc : String → ServiceOutcome)
    (pr : PRDetails) : ∀ (files : List File) (cs : List ReviewComment),
    (analyzeCodeT parse svc pr files).2 = .ok cs →
    cs = expectedComments parse svc pr files
  | [], cs, h => by
    simp [analyzeCodeT] at h
    simp [expectedComments, ← h]
  | f :: rest, cs, h => by
    by_cases hd : f.to = some "/dev/null"
    · have := analyzeCode_ok_eq parse svc pr rest cs (by simpa [analyzeCodeT, hd] using h)
      simpa [expectedComments, hd] using this
    · have hb : (f.to == some "/dev/null") = false := by simpa using hd
      cases hv : getAIResponse parse svc (createPrompt f f.chunks pr) with
      | jsUndefined =>
        have := analyzeCode_ok_eq parse svc pr rest cs
          (by simpa [analyzeCodeT, hb, hv] using h)
        simpa [expectedComments, hb, fileFindings, hv] using this
      | jsNull =>
        have := analyzeCode_ok_eq parse svc pr rest cs
          (by simpa [analyzeCodeT, hb, hv] using h)
        simpa [expectedComments, hb, fileFindings, hv] using this
      | jsFalsyOther =>
        have := analyzeCode_ok_eq parse svc pr rest cs
          (by simpa [analyzeCodeT, hb, hv] using h)
        simpa [expectedComments, hb, fileFindings, hv] using this
      | jsTruthyNonArray => simp [analyzeCodeT, hb, hv] at h
      | jsArray rs =>
        simp [analyzeCodeT, hb, hv] at h
        cases hr : (analyzeCodeT parse svc pr rest).2 with
        | error e => rw [hr] at h; simp [Except.map] at h
        | ok t =>
          rw [hr] at h
          simp only [Except.map, Except.ok.injEq] at h
          have ht := analyzeCode_ok_eq parse svc pr rest t hr
          simp [expectedComments, hd, fileFindings, hv, ← h, ht]

theorem analyzeCode_safe_ok (parse : String → ParseResult) (svc : String → ServiceOutcome)
    (pr : PRDetails) : ∀ files : List File,
    (∀ f ∈ files, getAIResponse parse svc (createPrompt f f.chunks pr) ≠ .jsTruthyNonArray) →
    (analyzeCodeT parse svc pr files).2 = .ok (expectedComments parse svc pr files)
  | [], _ => by simp [analyzeCodeT, expectedComments]
  | f :: rest, hs => by
    have hrest := analyzeCode_safe_ok parse svc pr rest
      (fun g hg => hs g (List.mem_cons_of_mem f hg))
    have hf := hs f (List.mem_cons_self f rest)
    by_cases hd : f.to = some "/dev/null"
    · simpa [analyzeCodeT, expectedComments, hd] using hrest
    · have hb : (f.to == some "/dev/null") = false := by simpa using hd
      cases hv : getAIResponse parse svc (createPrompt f f.chunks pr) with
      | jsTruthyNonArray => exact absurd hv hf
      | jsArray rs =>
        simp [analyzeCodeT, hb, hv, hrest, expectedComments, fileFindings, Except.map, hd]
      | jsUndefined =>
        simpa [analyzeCodeT, hb, hv, expectedComments, fileFindings] using hrest
      | jsNull =>
        simpa [analyzeCodeT, hb, hv, expectedComments, fileFindings] using hrest
      | jsFalsyOther =>
        simpa [analyzeCodeT, hb, hv, expectedComments, fileFindings] using hrest

theorem analyzeCodeT_calls_mem (parse : String → ParseResult) (svc : String → ServiceOutcome)
    (pr : PRDetails) : ∀ (files : List File) (c : String),
    c ∈ (analyzeCodeT parse svc pr files).1 →
    ∃ g, g ∈ files ∧ g.to ≠ some "/dev/null" ∧ c = createPrompt g g.chunks pr
  | [], c, h => by simp [analyzeCodeT] at h
  | f :: rest, c, h => by
    by_cases hd : f.to = some "/dev/null"
    · obtain ⟨g, hg, hgd, hc⟩ := analyzeCodeT_calls_mem parse svc pr rest c
        (by simpa [analyzeCodeT, hd] using h)
      exact ⟨g, List.mem_cons_of_mem f hg, hgd, hc⟩
    · have hb : (f.to == some "/dev/null") = false := by simpa using hd
      cases hv : getAIResponse parse svc (createPrompt f f.chunks pr) with
      | jsTruthyNonArray =>
        simp only [analyzeCodeT, hb, hv] at h
        simp at h
        exact ⟨f, List.mem_cons_self f rest, hd, h⟩
      | jsArray rs =>
        simp only [analyzeCodeT, hb, hv] at h
        rcases List.mem_cons.mp h with h1 | h2
        · exact ⟨f, List.mem_cons_self f rest, hd, h1⟩
        · obtain ⟨g, hg, hgd, hc⟩ := analyzeCodeT_calls_mem parse svc pr rest c h2
          exact ⟨g, List.mem_cons_of_mem f hg, hgd, hc⟩
      | jsUndefined =>
        simp only [analyzeCodeT, hb, hv] at h
        rcases List.mem_cons.mp h with h1 | h2
        · exact ⟨f, List.mem_cons_self f rest, hd, h1⟩
        · obtain ⟨g, hg, hgd, hc⟩ := analyzeCodeT_calls_mem parse svc pr rest c h2
          exact ⟨g, List.mem_cons_of_mem f hg, hgd, hc⟩
      | jsNull =>
        simp only [analyzeCodeT, hb, hv] at h
        rcases List.mem_cons.mp h with h1 | h2
        · exact ⟨f, List.mem_cons_self f rest, hd, h1⟩
        · obtain ⟨g, hg, hgd, hc⟩ := analyzeCodeT_calls_mem parse svc pr rest c h2
          exact ⟨g, List.mem_cons_of_mem f hg, hgd, hc⟩
      | jsFalsyOther =>
        simp only [analyzeCodeT, hb, hv] at h
        rcases List.mem_cons.mp h with h1 | h2
        · exact ⟨f, List.mem_cons_self f rest, hd, h1⟩
        · obtain ⟨g, hg, hgd, hc⟩ := analyzeCodeT_calls_mem parse svc pr rest c h2
          exact ⟨g, List.mem_cons_of_mem f hg, hgd, hc⟩

theorem mainRun_calls_cases (env : Env) :
    (mainRun env).calls = [] ∨
    (mainRun env).calls = (analyzeCodeT env.parse env.svc env.pr (filteredFiles env)).1 := by
  unfold mainRun
  by_cases h1 : supportedEvent env = true
  · by_cases h2 : diffMissing env = true
    · simp [h1, h2]
    · simp only [h1, if_true, h2, if_false, Bool.not_eq_true] at *
      cases hr : (analyzeCodeT env.parse env.svc env.pr (filteredFiles env)).2 <;>
        simp [h1, h2, hr]
  · simp [h1]

theorem mainRun_submitted_eq (env : Env) (cs : List ReviewComment)
    (h : (mainRun env).submitted = some cs) :
    cs ≠ [] ∧ (analyzeCodeT env.parse env.svc env.pr (filteredFiles env)).2 = .ok cs := by
  unfold mainRun at h
  by_cases h1 : supportedEvent env = true
  · rw [if_pos h1] at h
    by_cases h2 : diffMissing env = true
    · rw [if_pos h2] at h
      simp at h
    · rw [if_neg h2] at h
      cases hr : (analyzeCodeT env.parse env.svc env.pr (filteredFiles env)).2 with
      | error e => rw [hr] at h; simp at h
      | ok comments =>
        rw [hr] at h
        simp only at h
        split at h
        next h3 =>
          cases h
          exact ⟨fun hnil => by simp [hnil] at h3, rfl⟩
        next h3 => simp at h
  · rw [if_neg h1] at h
    simp at h

/-- Claim C4 (confirmed): for every file whose destination is the deletion
sentinel `/dev/null`, the file contributes no prompt, no inference call, and
no comments, regardless of the configured exclusion patterns: the whole
`analyzeCode` traversal (trace of inference calls and resulting comments
alike) of any file list — whatever the pattern filter produced — equals the
traversal of that list with all deletion-sentinel files removed, and every
prompt sent belongs to a non-deleted file. -/
theorem claim_c4 (parse : String → ParseResult) (svc : String → ServiceOutcome)
    (pr : PRDetails) (files : List File) :
    analyzeCodeT parse svc pr files
      = analyzeCodeT parse svc pr (files.filter fun f => f.to != some "/dev/null") ∧
    ∀ c ∈ (analyzeCodeT parse svc pr files).1,
      ∃ g, g ∈ files ∧ g.to ≠ some "/dev/null" ∧ c = createPrompt g g.chunks pr :=
  ⟨analyzeCodeT_filter_deleted parse svc pr files,
   fun c hc => analyzeCodeT_calls_mem parse svc pr files c hc⟩

/-- Claim C8 (confirmed): the aggregated comment sequence preserves
processing order — whenever `analyzeCode` resolves with a comment list, that
list is exactly the concatenation, over the input files in order (skipping
deletion-sentinel files), of each file's findings mapped one-to-one in the
order the inference service returned them, with no reordering, deduplication
or merging. -/
theorem claim_c8 (parse : String → ParseResult) (svc : String → ServiceOutcome)
    (pr : PRDetails) (files : List File) (cs : List ReviewComment)
    (h : analyzeCode parse svc pr files = .ok cs) :
    cs = expectedComments parse svc pr files :=
  analyzeCode_ok_eq parse svc pr files cs h

/-- Witness for C8: a concrete two-file diff (one live file, one deletion)
whose run resolves with exactly the live file's finding, in order. -/
theorem claim_c8_witness :
    [mkComment fileA fnd0] = expectedComments parseAB svcConstA pr0 [fileA, fileDel] :=
  claim_c8 parseAB svcConstA pr0 [fileA, fileDel] [mkComment fileA fnd0] rfl

/-- Claim C3 (confirmed): every file whose destination matches at least one
configured exclusion pattern is removed before analysis — it is not in the
filtered sequence, and every inference call of the run is made for the prompt
of some file that survived the filter (hence matches no pattern) and is not a
deletion. -/
theorem claim_c3 (env : Env) (f : File) (h : fileExcluded env f = true) :
    f ∉ filteredFiles env ∧
    ∀ c ∈ (mainRun env).calls,
      ∃ g, g ∈ filteredFiles env ∧ fileExcluded env g = false ∧
        g.to ≠ some "/dev/null" ∧ c = createPrompt g g.chunks env.pr := by
  constructor
  · intro hmem
    have := List.of_mem_filter hmem
    simp [h] at this
  · intro c hc
    rcases mainRun_calls_cases env with hcalls | hcalls
    · rw [hcalls] at hc
      simp at hc
    · rw [hcalls] at hc
      obtain ⟨g, hg, hgd, hcp⟩ :=
        analyzeCodeT_calls_mem env.parse env.svc env.pr (filteredFiles env) c hc
      refine ⟨g, hg, ?_, hgd, hcp⟩
      have := List.of_mem_filter hg
      simpa using this

/-- Witness for C3: with `exclude = "a.ts"`, the file `a.ts` matches the
pattern and is dropped from the filtered diff. -/
theorem claim_c3_witness :
    fileExcluded envC3 fileA = true ∧ fileA ∉ filteredFiles envC3 :=
  ⟨by decide, (claim_c3 envC3 fileA (by decide)).1⟩

/-- Claim C5 (confirmed): the submission boundary is invoked at most once per
run (it is a single optional record of the one guarded call site), only with
a non-empty aggregated comment sequence; and whenever the filtered diff is
empty the pipeline produces zero comments and never submits. -/
theorem claim_c5 (env : Env) :
    (∀ cs, (mainRun env).submitted = some cs →
      cs ≠ [] ∧ analyzeCode env.parse env.svc env.pr (filteredFiles env) = .ok cs) ∧
    (filteredFiles env = [] →
      analyzeCode env.parse env.svc env.pr (filteredFiles env) = .ok [] ∧
      (mainRun env).submitted = none) := by
  constructor
  · intro cs h
    exact mainRun_submitted_eq env cs h
  · intro hempty
    constructor
    · rw [hempty]
      rfl
    · unfold mainRun
      by_cases h1 : supportedEvent env = true
      · by_cases h2 : diffMissing env = true
        · simp [h1, h2]
        · simp [h1, h2, hempty, analyzeCodeT]
      · simp [h1]

/-- Witness for C5: a run whose parsed diff is empty submits nothing and
produces zero comments. -/
theorem claim_c5_witness :
    analyzeCode envC5.parse envC5.svc envC5.pr (filteredFiles envC5) = .ok [] ∧
    (mainRun envC5).submitted = none :=
  (claim_c5 envC5).2 rfl

/-- Counterexample to claim C1 as stated: in the run `envAB`, `fileB`'s
response content parses to a schema-violating `reviews` value (truthy but not
an array), `fileA` was successfully processed with one finding, and yet the
run aborts with an uncaught fault (exit code 1) and submits nothing — the
aggregate comment set does not retain `fileA`'s comment. -/
theorem claim_c1_counterexample :
    getAIResponse envAB.parse envAB.svc (createPrompt fileB fileB.chunks pr0)
      = .jsTruthyNonArray ∧
    fileFindings envAB.parse envAB.svc pr0 fileA = [fnd0] ∧
    analyzeCode envAB.parse envAB.svc envAB.pr (filteredFiles envAB) = .error () ∧
    (mainRun envAB).exitCode = 1 ∧
    (mainRun envAB).submitted = none :=
  ⟨rfl, rfl, rfl, rfl, rfl⟩

/-- Claim C1 (corrected): if no file's response content parses to a truthy
non-array `reviews` value, then a file whose inference call throws, whose
content is non-parseable, or whose `reviews` field is absent or falsy yields
zero findings for that file, no fault aborts the traversal, and the aggregate
comment set contains every comment produced for every successfully processed
file.  (As stated the claim fails: a truthy non-array `reviews` value makes
`aiResponse.map` throw an uncaught `TypeError` that aborts the run, see the
counterexample.) -/
theorem claim_c1 (parse : String → ParseResult) (svc : String → ServiceOutcome)
    (pr : PRDetails) (files : List File)
    (hsafe : ∀ f ∈ files,
      getAIResponse parse svc (createPrompt f f.chunks pr) ≠ .jsTruthyNonArray) :
    analyzeCode parse svc pr files = .ok (expectedComments parse svc pr files) ∧
    ∀ f ∈ files, f.to ≠ some "/dev/null" →
      ∀ c ∈ (fileFindings parse svc pr f).map (mkComment f),
        c ∈ expectedComments parse svc pr files := by
  refine ⟨analyzeCode_safe_ok parse svc pr files hsafe, ?_⟩
  intro f hf hfd c hc
  unfold expectedComments
  refine List.mem_flatMap.mpr ⟨f, hf, ?_⟩
  have hb : (f.to == some "/dev/null") = false := by simpa using hfd
  rw [hb]
  simpa using hc

/-- Witness for C1 (amended): a single-file run with an array-shaped response
resolves with exactly that file's comments. -/
theorem claim_c1_witness :
    analyzeCode parseAB svcConstA pr0 [fileA]
      = .ok (expectedComments parseAB svcConstA pr0 [fileA]) :=
  (claim_c1 parseAB svcConstA pr0 [fileA] (by decide)).1

/-- Claim C2 (confirmed): for every well-formed `parse-diff` change, the
rendered line label is the new-side number when one is present, otherwise the
original-side number; in particular an addition is always labelled with its
new-side number and a deletion with its original-side number. -/
theorem claim_c2 (c : Change) (h : c.wf = true) :
    (∀ n, c.newSide = some n → lineLabel c = toString n) ∧
    (c.newSide = none → ∃ m, c.origSide = some m ∧ lineLabel c = toString m) ∧
    (c.kind = .add → ∃ n, c.newSide = some n ∧ lineLabel c = toString n) ∧
    (c.kind = .del → c.newSide = none ∧ ∃ m, c.origSide = some m ∧ lineLabel c = toString m) := by
  obtain ⟨k, ln, ln1, ln2, ct⟩ := c
  cases k with
  | add =>
    simp only [Change.wf, Bool.and_eq_true, beq_iff_eq] at h
    obtain ⟨⟨hpos, h1⟩, h2⟩ := h
    cases ln with
    | none => simp [posNum] at hpos
    | some n =>
      have hn : (n != 0) = true := by simpa [posNum] using hpos
      subst h1
      subst h2
      refine ⟨?_, ?_, ?_, ?_⟩
      · intro m hm
        simp [Change.newSide] at hm
        subst hm
        simp [lineLabel, jsTruthyNum, hn, jsShowOptNat]
      · intro hnone
        simp [Change.newSide] at hnone
      · intro _
        exact ⟨n, by simp [Change.newSide],
          by simp [lineLabel, jsTruthyNum, hn, jsShowOptNat]⟩
      · intro hk
        nomatch hk
  | del =>
    simp only [Change.wf, Bool.and_eq_true, beq_iff_eq] at h
    obtain ⟨⟨hpos, h1⟩, h2⟩ := h
    cases ln with
    | none => simp [posNum] at hpos
    | some n =>
      have hn : (n != 0) = true := by simpa [posNum] using hpos
      subst h1
      subst h2
      refine ⟨?_, ?_, ?_, ?_⟩
      · intro m hm
        simp [Change.newSide] at hm
      · intro _
        exact ⟨n, by simp [Change.origSide],
          by simp [lineLabel, jsTruthyNum, hn, jsShowOptNat]⟩
      · intro hk
        nomatch hk
      · intro _
        refine ⟨by simp [Change.newSide], n, by simp [Change.origSide],
          by simp [lineLabel, jsTruthyNum, hn, jsShowOptNat]⟩
  | normal =>
    simp only [Change.wf, Bool.and_eq_true, beq_iff_eq] at h
    obtain ⟨⟨hln, hpos1⟩, hpos2⟩ := h
    subst hln
    cases ln2 with
    | none => simp [posNum] at hpos2
    | some n2 =>
      refine ⟨?_, ?_, ?_, ?_⟩
      · intro m hm
        simp [Change.newSide] at hm
        subst hm
        simp [lineLabel, jsTruthyNum, jsShowOptNat]
      · intro hnone
        simp [Change.newSide] at hnone
      · intro hk
        nomatch hk
      · intro hk
        nomatch hk

/-- Witness for C2: a concrete addition at new-side line 7 is labelled `7`. -/
theorem claim_c2_witness :
    Change.wf ⟨.add, some 7, none, none, "x"⟩ = true ∧
    (∃ n, Change.newSide ⟨.add, some 7, none, none, "x"⟩ = some n ∧
      lineLabel ⟨.add, some 7, none, none, "x"⟩ = toString n) :=
  ⟨by decide, (claim_c2 ⟨.add, some 7, none, none, "x"⟩ (by decide)).2.2.1 rfl⟩

/-- Counterexample to claim C6 as stated: a change that carries neither line
number is not skipped by the prompt compiler — it is rendered with the
defaulted label `undefined` (JavaScript string interpolation of the absent
value), and it appears in the serialized chunk. -/
theorem claim_c6_counterexample :
    renderChange ⟨.normal, none, none, none, "x"⟩ = "undefined x" ∧
    combinedChunks [⟨"@@ -1,1 +1,1 @@", [⟨.normal, none, none, none, "x"⟩]⟩]
      = "\n@@ -1,1 +1,1 @@\nundefined x" :=
  ⟨rfl, rfl⟩

/-- Claim C6 (corrected): a `DiffLineChange` carrying neither an original-side
nor a new-side line number is NOT skipped when the prompt is compiled — it is
rendered with the literal label `undefined` (the JavaScript interpolation of
the absent value), and the serialization renders exactly one line per change
of a chunk, skipping none. -/
theorem claim_c6 (c : Change) (h1 : c.ln = none) (h2 : c.ln2 = none) :
    renderChange c = "undefined " ++ c.content ∧
    ∀ ch : Chunk, (ch.changes.map renderChange).length = ch.changes.length := by
  constructor
  · simp [renderChange, lineLabel, h1, h2, jsTruthyNum, jsShowOptNat]
  · intro ch
    simp

/-- Witness for C6 (amended): a concrete numberless change renders with the
`undefined` label. -/
theorem claim_c6_witness :
    renderChange ⟨.add, none, none, none, "y"⟩ = "undefined " ++ "y" :=
  (claim_c6 ⟨.add, none, none, none, "y"⟩ rfl rfl).1

/-- Counterexample to claim C7 as stated: with the pattern list obtained from
an empty configuration string (which is `[""]`), a file whose destination
path is undefined DOES match a configured pattern — the empty pattern matches
the empty path under the matcher's documented contract — and the file is
excluded by the pattern rules. -/
theorem claim_c7_counterexample :
    patternsOf envC7 = [""] ∧
    fileNoTo.to = none ∧
    fileExcluded envC7 fileNoTo = true ∧
    filteredFiles envC7 = [] :=
  ⟨rfl, rfl, rfl, rfl⟩

/-- Claim C7 (corrected): a file whose destination path is empty or undefined
is matched against the patterns as the empty path: it is excluded by the
pattern rules exactly when some configured exclusion pattern matches the
empty path, and it is kept by the filter when none does.  It is NOT in
general "treated as not matching any pattern": the empty pattern — present in
the list obtained from an empty configuration string — matches the empty path
(see the counterexample), and so do some non-empty patterns of the matcher,
e.g. a lone globstar (see `minimatch_empty_path_cases`). -/
theorem claim_c7 (env : Env) (f : File) (hto : f.to.getD "" = "") :
    fileExcluded env f = ((patternsOf env).any fun p => env.mm "" p) ∧
    ((∀ p ∈ patternsOf env, env.mm "" p = false) →
      f ∈ parsedFiles env → f ∈ filteredFiles env) := by
  have hstruct : fileExcluded env f = ((patternsOf env).any fun p => env.mm "" p) := by
    unfold fileExcluded
    rw [hto]
  refine ⟨hstruct, fun hnone hmem => ?_⟩
  have hfalse : ((patternsOf env).any fun p => env.mm "" p) = false := by
    rw [List.any_eq_false]
    intro p hp
    simp [hnone p hp]
  refine List.mem_filter.mpr ⟨hmem, ?_⟩
  rw [hstruct, hfalse]
  rfl

/-- Witness for C7 (amended): with the single pattern `"x.nomatch"`, which
does not match the empty path, a file with an undefined destination survives
the filter. -/
theorem claim_c7_witness :
    fileNoTo ∈ filteredFiles envC7b :=
  (claim_c7 envC7b fileNoTo rfl).2 (by decide) (by decide)

/-- Claim C9 (confirmed): a run whose event action is neither `opened` nor
`synchronize`, and a run with no retrievable diff content, log a message and
return early as a successful no-op — exit code 0, no inference calls, no
submission — and the outcome is independent of the diff parser (nothing is
parsed). -/
theorem claim_c9 (env : Env) :
    (supportedEvent env = false →
      mainRun env
        = { log := ["Unsupported event:"], calls := [], submitted := none, exitCode := 0 } ∧
      ∀ pd, mainRun { env with parseDiff := pd } = mainRun env) ∧
    (supportedEvent env = true → diffMissing env = true →
      mainRun env
        = { log := ["No diff found"], calls := [], submitted := none, exitCode := 0 } ∧
      ∀ pd, mainRun { env with parseDiff := pd } = mainRun env) := by
  constructor
  · intro h
    have h' : ¬supportedEvent env = true := by simp [h]
    constructor
    · unfold mainRun
      rw [if_neg h']
    · intro pd
      unfold mainRun
      rw [if_neg h', if_neg (show ¬supportedEvent { env with parseDiff := pd } = true from h')]
  · intro h1 h2
    constructor
    · unfold mainRun
      rw [if_pos h1, if_pos h2]
    · intro pd
      unfold mainRun
      rw [if_pos h1, if_pos h2,
        if_pos (show supportedEvent { env with parseDiff := pd } = true from h1),
        if_pos (show diffMissing { env with parseDiff := pd } = true from h2)]

/-- Witness for C9: a `closed` event is a clean logged no-op. -/
theorem claim_c9_witness :
    mainRun envC9
      = { log := ["Unsupported event:"], calls := [], submitted := none, exitCode := 0 } :=
  ((claim_c9 envC9).1 rfl).1

/-- Claim C10 (confirmed): for every accepted finding the aggregator emits a
`ReviewComment` unconditionally — one comment per finding, none dropped —
coercing the finding's `lineNumber` string with JavaScript `Number`
semantics: the empty string yields line 0 and a non-numeric string yields
`NaN`. -/
theorem claim_c10 (parse : String → ParseResult) (svc : String → ServiceOutcome)
    (pr : PRDetails) (f : File) (rs : List Finding)
    (hd : f.to ≠ some "/dev/null")
    (h : getAIResponse parse svc (createPrompt f f.chunks pr) = .jsArray rs) :
    analyzeCode parse svc pr [f]
      = .ok (rs.map fun r =>
          { body := r.reviewComment, path := f.to, line := jsNumber r.lineNumber }) ∧
    (rs.map (mkComment f)).length = rs.length ∧
    jsNumber .empty = .num 0 ∧
    jsNumber .nonNumeric = .nan := by
  have hb : (f.to == some "/dev/null") = false := by simpa using hd
  refine ⟨?_, by simp, rfl, rfl⟩
  show (analyzeCodeT parse svc pr [f]).2 = _
  simp [analyzeCodeT, hb, h, Except.map, mkComment]

/-- Witness for C10: one finding with a numeric line string becomes exactly
one comment with the coerced line number. -/
theorem claim_c10_witness :
    analyzeCode parseAB svcConstA pr0 [fileA]
      = .ok [{ body := some "c", path := some "a.ts", line := .num 3 }] :=
  (claim_c10 parseAB svcConstA pr0 fileA [fnd0] (by decide) rfl).1

/-- A concrete run that does submit: both files succeed, the non-empty
aggregate is submitted once, and the process exits cleanly (non-vacuity of
the submission branch of `mainRun`). -/
theorem mainRun_submits :
    (mainRun envOk).submitted = some [mkComment fileA fnd0, mkComment fileB fnd0] ∧
    (mainRun envOk).exitCode = 0 :=
  ⟨rfl, rfl⟩

end Reviewer
